import Mathlib

/-!
Formal model of the IPv4 receive path in
`MdeModulePkg/Universal/Network/Ip4Dxe/Ip4Input.c`.

The C code is shallowly embedded: machine integers of type `INTN` become
`Int`, unsigned counters become `Nat`, the intrusive doubly-linked lists
(`LIST_ENTRY` plus `NET_LIST_USER_STRUCT`) become Lean `List`s, and the
external collaborators (checksum, option validation, cast classification,
the buffer allocator) become parameters.  `ASSERT` statements compile to
nothing in a release build and are modelled as no-ops; where an assertion
matters for a statement it is quoted in the accompanying theorem comment.
-/

/-- Cast classification of a destination address, as produced by the
external `Ip4GetHostCast` / `Ip4GetNetCast` helpers.  The numeric
encodings live in a header outside this file; an inductive is used since
only equality and the broadcast test are consumed here. -/
inductive CastType where
  | none
  | localHost
  | multicast
  | localBroadcast
  | subnetBroadcast
  | netBroadcast
  | promiscuous
deriving DecidableEq, Repr

/-- `IP4_IS_BROADCAST`: the cast type is one of the broadcast flavours. -/
def ip4IsBroadcast (c : CastType) : Bool :=
  c = CastType.localBroadcast || c = CastType.subnetBroadcast || c = CastType.netBroadcast

/-- The per-packet side band information `IP4_CLIP_INFO` attached by
`IP4_GET_CLIP_INFO`.  `Start`, `End` and `Length` are `INTN` in the
source, hence `Int` here; `Life` is the queue timeout in seconds. -/
structure ClipInfo where
  Start : Int
  Length : Int
  End : Int
  CastType : CastType
  Life : Nat
deriving DecidableEq, Repr

/-- The host-order IPv4 header fields (`IP4_HEAD`) read by the input
path.  `Fragment` is the combined flags/offset word. -/
structure Ip4Head where
  Dst : Nat
  Src : Nat
  Id : Nat
  Protocol : Nat
  Fragment : Nat
  TotalLen : Nat
deriving DecidableEq, Repr

/-- A received fragment: a `NET_BUF` carrying its parsed header
(`Packet->Ip`) and its clip info. -/
structure Packet where
  Ip : Ip4Head
  Info : ClipInfo
deriving DecidableEq, Repr

/-- `IP4_LAST_FRAGMENT`: the MF bit (mask `0x2000`) of the fragment word
is clear. -/
def ip4LastFragment (frag : Nat) : Bool :=
  frag &&& 8192 = 0

/-- `Ip4TrimPacket` (Ip4Input.c, lines 169-198): narrow a packet's clip
range to fit `[Start, End)`.  The head branch computes
`Len = Start - Info->Start` and subtracts it from `Length`; the tail
branch computes `Len = End - Info->End` (note the source's operand
order) and subtracts that from `Length`.  The byte-level `NetbufTrim`
calls are external and not modelled; the function's effect on the clip
info is modelled exactly.  The two entry `ASSERT`s
(`Info->Start + Info->Length == Info->End` and overlap of the ranges)
are release no-ops. -/
def Ip4TrimPacket (info : ClipInfo) (Start : Int) (End : Int) : ClipInfo :=
  let info1 :=
    if info.Start < Start then
      { info with Start := Start, Length := info.Length - (Start - info.Start) }
    else info
  if End < info1.End then
    { info1 with End := End, Length := info1.Length - (End - info1.End) }
  else info1

/-- One assembly entry (`IP4_ASSEMBLE_ENTRY`): the reassembly state for
a `(Dst, Src, Id, Protocol)` key.  `Head`/`Info` hold the captured
header and clip info of the `Start == 0` fragment; `Fragments` is the
intrusive list of pending fragments in list order. -/
structure AssembleEntry where
  Dst : Nat
  Src : Nat
  Id : Nat
  Protocol : Nat
  TotalLen : Int
  CurLen : Int
  Head : Option Ip4Head
  Info : Option ClipInfo
  Life : Nat
  Fragments : List Packet
deriving DecidableEq, Repr

/-- `IP4_FRAGMENT_LIFE`: 120 seconds (constant declared in a header
outside this file; the value is documented in the source comment of
`Ip4CreateAssembleEntry`). -/
def ip4FragmentLife : Nat := 120

/-- `Ip4CreateAssembleEntry` (lines 42-72): a fresh, empty entry for the
given key. -/
def Ip4CreateAssembleEntry (dst src id protocol : Nat) : AssembleEntry :=
  { Dst := dst, Src := src, Id := id, Protocol := protocol
    TotalLen := 0, CurLen := 0, Head := Option.none, Info := Option.none
    Life := ip4FragmentLife, Fragments := [] }

/-- The datagram handed back by `Ip4Reassemble` when an entry completes:
`NetbufFromBufList` over the fragment list, with `NewPacket->Ip` set
from `Assemble->Head` and the clip info copied from `Assemble->Info`. -/
structure Datagram where
  Frags : List Packet
  Ip : Option Ip4Head
  Info : Option ClipInfo
deriving DecidableEq, Repr

/-- The sweep over the nodes at and after the insertion point
(Ip4Input.c, lines 337-370).  `This` is the incoming packet's clip info
(already inserted just before the first element of `after`).  Nodes
fully covered (`Node->End <= This->End`) are unlinked, their length
subtracted from `CurLen`, and freed.  At the first surviving node, if
`Node->Start < This->End` the fragments overlap: an equal `Start` drops
the incoming packet (`RemoveEntryList` + `goto DROP`), otherwise the
incoming packet is tail-trimmed to `[This->Start, Node->Start)`; then
the loop breaks.  Returns the updated clip info, the updated `CurLen`,
the surviving suffix, and whether the incoming packet was dropped. -/
def ip4ReassembleSweep (This : ClipInfo) (curLen : Int) :
    List Packet → ClipInfo × Int × List Packet × Bool
  | [] => (This, curLen, [], false)
  | nd :: rest =>
    if nd.Info.End ≤ This.End then
      ip4ReassembleSweep This (curLen - nd.Info.Length) rest
    else if nd.Info.Start < This.End then
      if This.Start = nd.Info.Start then (This, curLen, nd :: rest, true)
      else (Ip4TrimPacket This This.Start nd.Info.Start, curLen, nd :: rest, false)
    else (This, curLen, nd :: rest, false)

/-- The body of `Ip4Reassemble` once the assembly entry is in hand
(Ip4Input.c, lines 290-446).  Returns the produced datagram (if the
entry completed) and the surviving entry (`Option.none` when the entry was
unlinked from its bucket, either freed or consumed by the datagram).

Faithful points worth noting:
* the insertion point is before the first fragment with
  `This->Start < Fragment->Start` (lines 297-303);
* line 311 computes the overlap-check node as `Prev = Cur->ForwardLink`
  — the node *after* the cursor (or, when the cursor is the list head
  sentinel, the *first* node of the list) — and skips the check when
  that is the sentinel;
* on the equal-start drop inside the sweep, the removals and `CurLen`
  subtractions performed earlier in the sweep persist;
* `Assemble->Head`/`Info` are assigned whenever the (possibly trimmed)
  packet has `Start == 0`; the `ASSERT (Assemble->Head == NULL)` is a
  release no-op, so an existing capture is overwritten;
* allocation failures (`Ip4CreateAssembleEntry`, `NetbufFromBufList`)
  are not modelled: allocation is assumed to succeed. -/
def ip4ReassembleEntry (asm : AssembleEntry) (pkt : Packet) :
    Option Datagram × Option AssembleEntry :=
  let This := pkt.Info
  let frags := asm.Fragments
  let before := frags.takeWhile (fun f => !(This.Start < f.Info.Start))
  let after := frags.dropWhile (fun f => !(This.Start < f.Info.Start))
  -- Prev = Cur->ForwardLink (line 311)
  let prevNode : Option Packet :=
    match after with
    | [] => frags.head?
    | _ :: rest => rest.head?
  -- overlap handling against that node (lines 311-323)
  let step : Option ClipInfo :=
    match prevNode with
    | Option.none => Option.some This
    | Option.some nd =>
      if This.Start < nd.Info.End then
        if This.End ≤ nd.Info.End then Option.none
        else Option.some (Ip4TrimPacket This nd.Info.End This.End)
      else Option.some This
  match step with
  | Option.none => (Option.none, Option.some asm)  -- NetbufFree (Packet); return NULL
  | Option.some this1 =>
    match ip4ReassembleSweep this1 asm.CurLen after with
    | (_, curLen2, remaining, true) =>
      -- equal-start drop: packet unlinked and freed, entry keeps the removals
      (Option.none, Option.some { asm with Fragments := before ++ remaining, CurLen := curLen2 })
    | (this2, curLen2, remaining, false) =>
      let fragments := before ++ { pkt with Info := this2 } :: remaining
      let curLen := curLen2 + this2.Length
      let headCap := if this2.Start = 0 then Option.some pkt.Ip else asm.Head
      let infoCap := if this2.Start = 0 then Option.some this2 else asm.Info
      let totalLen :=
        if ip4LastFragment pkt.Ip.Fragment && asm.TotalLen = 0 then this2.End
        else asm.TotalLen
      if totalLen ≠ 0 && totalLen ≤ curLen then
        -- completion: unlink the entry from the bucket (line 407)
        match fragments.getLast? with
        | Option.none => (Option.none, Option.none)  -- unreachable: the packet is on the list
        | Option.some lastFrag =>
          if lastFrag.Info.End ≠ totalLen then
            (Option.none, Option.none)  -- Ip4FreeAssembleEntry; return NULL
          else
            (Option.some { Frags := fragments, Ip := headCap, Info := infoCap },
             Option.none)
      else
        (Option.none,
         Option.some { asm with Fragments := fragments, CurLen := curLen,
                                Head := headCap, Info := infoCap, TotalLen := totalLen })

/-- Split a bucket at the first entry whose four key fields match
`IpHead` (the lookup loop of lines 263-270). -/
def ip4FindAssemble (h : Ip4Head) :
    List AssembleEntry → List AssembleEntry × Option AssembleEntry × List AssembleEntry
  | [] => ([], Option.none, [])
  | a :: rest =>
    if a.Dst = h.Dst ∧ a.Src = h.Src ∧ a.Id = h.Id ∧ a.Protocol = h.Protocol then
      ([], Option.some a, rest)
    else
      match ip4FindAssemble h rest with
      | (pre, found, post) => (a :: pre, found, post)

/-- `Ip4Reassemble` (lines 236-447) restricted to the bucket selected by
`IP4_ASSEMBLE_HASH` (the hash itself lives in a header outside this
file and only selects which bucket list is passed in).  A missing entry
is created and linked at the bucket head (`InsertHeadList`, line 287). -/
def Ip4Reassemble (bucket : List AssembleEntry) (pkt : Packet) :
    Option Datagram × List AssembleEntry :=
  match ip4FindAssemble pkt.Ip bucket with
  | (pre, Option.some asm, post) =>
    match ip4ReassembleEntry asm pkt with
    | (r, Option.some asm2) => (r, pre ++ asm2 :: post)
    | (r, Option.none) => (r, pre ++ post)
  | (_, Option.none, _) =>
    let asm := Ip4CreateAssembleEntry pkt.Ip.Dst pkt.Ip.Src pkt.Ip.Id pkt.Ip.Protocol
    match ip4ReassembleEntry asm pkt with
    | (r, Option.some asm2) => (r, asm2 :: bucket)
    | (r, Option.none) => (r, bucket)

/-- Fragment-list well-formedness asserted by the source comments and
the specification: strictly ascending `Start` and adjacent fragments
non-overlapping (`P.End <= Q.Start`). -/
def ip4FragsSortedDisjoint : List Packet → Bool
  | [] => true
  | [_] => true
  | a :: b :: rest =>
    decide (a.Info.Start < b.Info.Start) && decide (a.Info.End ≤ b.Info.Start) &&
      ip4FragsSortedDisjoint (b :: rest)

/-- Sum of the recorded `Length` fields of a fragment list. -/
def ip4CurLenSum (l : List Packet) : Int :=
  (l.map (fun f => f.Info.Length)).sum

/-- The fragment ranges form a gapless chain starting at `pos`:
each fragment starts exactly where the previous one ended. -/
def ip4FragsContiguousFrom (pos : Int) : List Packet → Bool
  | [] => true
  | p :: rest => decide (p.Info.Start = pos) && ip4FragsContiguousFrom p.Info.End rest

/-- Total number of bytes actually covered by the fragment ranges. -/
def ip4CoveredLen (l : List Packet) : Int :=
  (l.map (fun f => f.Info.End - f.Info.Start)).sum

/-- A host-order header for the examples: all example fragments of one
datagram share the key `(Dst,Src,Id,Protocol) = (1,2,7,17)`; `mf` sets
the MF bit (`0x2000`) of the fragment word and `off` its offset field. -/
def exHead (tl : Nat) (mf : Bool) (off : Nat) : Ip4Head :=
  { Dst := 1, Src := 2, Id := 7, Protocol := 17
    Fragment := (if mf then 8192 else 0) + off, TotalLen := tl }

/-- Clip info covering `[s, s+l)`. -/
def exInfo (s l : Int) : ClipInfo :=
  { Start := s, Length := l, End := s + l, CastType := CastType.localHost, Life := 120 }

/-- Fragment `[0,100)`, MF set. -/
def c12P1 : Packet := ⟨exHead 120 true 0, exInfo 0 100⟩
/-- Fragment `[150,250)`, MF set. -/
def c12P2 : Packet := ⟨exHead 120 true 18, exInfo 150 100⟩
/-- Fragment `[200,300)`, MF set: overlaps its true predecessor `[150,250)`. -/
def c12P3 : Packet := ⟨exHead 120 true 25, exInfo 200 100⟩

/-- Feeding the three fragments `[0,100)`, `[150,250)`, `[200,300)` of
one datagram, in this order, to `Ip4Reassemble` starting from an empty
bucket. -/
def c12Run : Option Datagram × List AssembleEntry :=
  let b1 := (Ip4Reassemble [] c12P1).2
  let b2 := (Ip4Reassemble b1 c12P2).2
  Ip4Reassemble b2 c12P3

/-- The assembly entry the source actually produces for `c12Run`: the
third fragment is inserted untrimmed. -/
def c12Entry : AssembleEntry :=
  { Dst := 1, Src := 2, Id := 7, Protocol := 17
    TotalLen := 0, CurLen := 300
    Head := Option.some c12P1.Ip, Info := Option.some (exInfo 0 100)
    Life := ip4FragmentLife, Fragments := [c12P1, c12P2, c12P3] }

/-- Fragment `[100,300)`, MF set. -/
def c4P1 : Packet := ⟨exHead 220 true 12, exInfo 100 200⟩
/-- Fragment `[0,200)`, MF set: overlaps the successor `[100,300)`, so
it is tail-trimmed on insertion. -/
def c4P2 : Packet := ⟨exHead 220 true 0, exInfo 0 200⟩
/-- Fragment `[350,400)`, MF clear (the last fragment). -/
def c4P3 : Packet := ⟨exHead 70 false 43, exInfo 350 50⟩

/-- Feeding `[100,300)`, `[0,200)`, `[350,400)` (the last with MF clear)
to `Ip4Reassemble` starting from an empty bucket. -/
def c4Run : Option Datagram × List AssembleEntry :=
  let b1 := (Ip4Reassemble [] c4P1).2
  let b2 := (Ip4Reassemble b1 c4P2).2
  Ip4Reassemble b2 c4P3

/-- The datagram the source actually emits for `c4Run`: the range
`[300,350)` was never received, yet the entry completed because the
tail-trim of `c4P2` recorded `Length = 300` for a 100-byte range,
inflating `CurLen` to 550 against `TotalLen = 400`. -/
def c4Dg : Datagram :=
  { Frags := [⟨c4P2.Ip, { Start := 0, Length := 300, End := 100
                          CastType := CastType.localHost, Life := 120 }⟩,
              c4P1, c4P3]
    Ip := Option.some c4P2.Ip
    Info := Option.some { Start := 0, Length := 300, End := 100
                          CastType := CastType.localHost, Life := 120 } }

/-- Fragment `[0,100)`, MF set: the first `Start == 0` fragment. -/
def c5P1 : Packet := ⟨exHead 120 true 0, exInfo 0 100⟩
/-- Fragment `[104,200)`, MF set. -/
def c5P2 : Packet := ⟨exHead 116 true 13, exInfo 104 96⟩
/-- Fragment `[0,8)`, MF set: a second `Start == 0` fragment. -/
def c5P3 : Packet := ⟨exHead 28 true 0, exInfo 0 8⟩

/-- Bucket after feeding `[0,100)` and `[104,200)`. -/
def c5B2 : List AssembleEntry :=
  (Ip4Reassemble (Ip4Reassemble [] c5P1).2 c5P2).2

/-- Bucket after additionally feeding the second `Start == 0` fragment
`[0,8)`. -/
def c5B3 : List AssembleEntry :=
  (Ip4Reassemble c5B2 c5P3).2

/-- C1: the claim reads the overlap check as comparing the incoming
packet with the fragment immediately before the insertion point.  The
source instead takes `Prev = Cur->ForwardLink` (line 311): when the
cursor is the list-head sentinel this is the *first* fragment of the
list, not the last one before the insertion point.  Feeding `[0,100)`,
`[150,250)`, `[200,300)`, the claim requires `[200,300)` to be
head-trimmed to `[250,300)` (since `200 < 250 = prev.End < 300`), but
the code compares against `[0,100)`, sees no overlap, and inserts
`[200,300)` unchanged. -/
theorem ip4Reassemble_prev_check_uses_successor :
    c12Run = (Option.none, [c12Entry]) ∧
    c12Entry.Fragments.map (fun f => f.Info) =
      [exInfo 0 100, exInfo 150 100, exInfo 200 100] := by
  constructor
  · rfl
  · rfl

/-- C2: the ordering/non-overlap invariant fails on the same run: the
final fragment list `[0,100), [150,250), [200,300)` has the adjacent
pair `[150,250)`, `[200,300)` with `P.End = 250 > 200 = Q.Start`, while
`CurLen` still equals the sum of the recorded lengths (that half of the
claim holds, so the conjunction fails on the ordering half). -/
theorem ip4Reassemble_fragments_overlap :
    c12Run.2.map (fun e => ip4FragsSortedDisjoint e.Fragments) = [false] ∧
    c12Run.2.map (fun e => decide (e.CurLen = ip4CurLenSum e.Fragments)) = [true] := by
  constructor
  · rfl
  · rfl

/-- C3: `Ip4TrimPacket` on the clip info `[0,150)` (with
`Start + Length = End` on entry) and the window `[0,100)` tail-trims to
the intersection `[0,100)` as far as `Start`/`End` go, but the source
computes `Len = End - Info->End = -50` and performs `Length -= Len`,
*increasing* `Length` from 150 to 200 instead of reducing it to 100:
`Start + Length == End` is not re-established. -/
theorem ip4TrimPacket_tail_breaks_length :
    (Ip4TrimPacket (exInfo 0 150) 0 100).Start = 0 ∧
    (Ip4TrimPacket (exInfo 0 150) 0 100).End = 100 ∧
    (Ip4TrimPacket (exInfo 0 150) 0 100).Length = 200 ∧
    (Ip4TrimPacket (exInfo 0 150) 0 100).Start +
        (Ip4TrimPacket (exInfo 0 150) 0 100).Length ≠
      (Ip4TrimPacket (exInfo 0 150) 0 100).End := by
  refine ⟨rfl, rfl, rfl, ?_⟩
  decide

/-- C4: a successfully finished datagram can have a hole.  Feeding
`[100,300)`, `[0,200)`, `[350,400)` (last fragment MF clear), the
tail-trim of `[0,200)` against `[100,300)` records an inflated
`Length = 300`, so `CurLen = 550 ≥ TotalLen = 400` although only
`[0,300) ∪ [350,400)` — 350 bytes — was received.  The completion test
passes (the last fragment ends exactly at `TotalLen`), the entry leaves
the bucket and a datagram missing `[300,350)` is emitted. -/
theorem ip4Reassemble_emits_datagram_with_hole :
    c4Run = (Option.some c4Dg, []) ∧
    ip4FragsContiguousFrom 0 c4Dg.Frags = false ∧
    ip4CoveredLen c4Dg.Frags = 350 := by
  refine ⟨?_, rfl, rfl⟩
  rfl

/-- C5: `Assemble->Head` can be overwritten by a second `Start == 0`
fragment, violating `ASSERT (Assemble->Head == NULL)` (line 385).  With
the list `[0,100), [104,200)`, the fragment `[0,8)` is inserted before
`[104,200)`; the overlap check reads `Prev = Cur->ForwardLink`, which is
the list-head sentinel (`[104,200)` is the last node), so the check that
would have dropped `[0,8)` as fully covered by `[0,100)` is skipped, and
the `Start == 0` capture runs a second time, replacing the header of
`[0,100)` with the header of `[0,8)`. -/
theorem ip4Reassemble_head_capture_overwritten :
    c5B2.map (fun e => e.Head) = [Option.some c5P1.Ip] ∧
    c5B3.map (fun e => e.Head) = [Option.some c5P3.Ip] ∧
    c5P3.Ip ≠ c5P1.Ip := by
  refine ⟨rfl, rfl, ?_⟩
  decide

/-- The inputs of `Ip4AccpetFrame` (Ip4Input.c, lines 466-625) as far as
the ingress validation is concerned.  External collaborators are
represented by their results: `ChecksumComputedOk` stands for
`~NetblockChecksum(...) == 0`, `CastType` for `Ip4GetHostCast`,
`OptionsValid` for `Ip4OptionIsValid`. -/
structure RxFrame where
  IoError : Bool
  SbDestroyed : Bool
  TotalSize : Nat
  Ver : Nat
  HeadLenField : Nat
  TotalLen : Nat
  ChecksumField : Nat
  ChecksumComputedOk : Bool
  Fragment : Nat
  Dst : Nat
  Src : Nat
  Id : Nat
  Protocol : Nat
  CastType : CastType
  OptionsValid : Bool
deriving DecidableEq, Repr

/-- What `Ip4AccpetFrame` does with the received frame: free it without
re-arming (the io-error/teardown `DROP` path), free it and re-arm the
receive (`RESTART`, every validation failure), hand the headless packet
with its clip info to `Ip4Reassemble` (the fragment path), or move
straight to the protocol dispatch. -/
inductive AcceptOutcome where
  | drop
  | restart
  | toReassembler (info : ClipInfo)
  | dispatch (info : ClipInfo)
deriving DecidableEq, Repr

/-- The clip info `Ip4AccpetFrame` populates at lines 525-531:
`Start := (Fragment & 0x1fff) << 3`, `Length := TotalLen - HeadLen`,
`End := Start + Length` (`Life` is not written on this path). -/
def ip4AcceptClip (f : RxFrame) : ClipInfo :=
  let start : Int := ((f.Fragment &&& 8191) * 8 : Nat)
  let length : Int := (f.TotalLen - f.HeadLenField * 4 : Nat)
  { Start := start, Length := length, End := start + length
    CastType := f.CastType, Life := 0 }

/-- `Ip4AccpetFrame` (lines 466-625), modelled up to the hand-off: the
header checks, trailer trim, checksum check, clip-info population, cast
and size checks, option validation, and the fragment-path checks (DF
set, and MF set with a length not a multiple of 8).  The call into
`Ip4Reassemble` and the following protocol dispatch are modelled
separately (`Ip4Reassemble` above). -/
def Ip4AccpetFrame (f : RxFrame) : AcceptOutcome :=
  if f.IoError || f.SbDestroyed then AcceptOutcome.drop
  else if f.TotalSize < 20 then AcceptOutcome.restart
  else
    let headLen := f.HeadLenField * 4
    -- Mnp may deliver a frame trailer; it is trimmed so that the packet
    -- size becomes min(TotalLen, TotalSize).
    let size := if f.TotalLen < f.TotalSize then f.TotalLen else f.TotalSize
    if f.Ver ≠ 4 || headLen < 20 || f.TotalLen < headLen || f.TotalLen ≠ size then
      AcceptOutcome.restart
    else if f.ChecksumField ≠ 0 && !f.ChecksumComputedOk then AcceptOutcome.restart
    else
      let info := ip4AcceptClip f
      if f.CastType = CastType.none || info.End > 65535 then AcceptOutcome.restart
      else if headLen - 20 > 0 && !f.OptionsValid then AcceptOutcome.restart
      else if f.Fragment &&& 8192 ≠ 0 || info.Start ≠ 0 then
        if f.Fragment &&& 16384 ≠ 0 then AcceptOutcome.restart
        else if f.Fragment &&& 8192 ≠ 0 && info.Length % 8 ≠ 0 then AcceptOutcome.restart
        else AcceptOutcome.toReassembler info
      else AcceptOutcome.dispatch info

/-- A non-terminal fragment with a zero-length payload: MF set, offset
8 units (64 bytes), `TotalLen` equal to the 20-byte header, valid
version and checksum. -/
def c6ZeroLenFrag : RxFrame :=
  { IoError := false, SbDestroyed := false, TotalSize := 20, Ver := 4
    HeadLenField := 5, TotalLen := 20, ChecksumField := 0
    ChecksumComputedOk := true, Fragment := 8200
    Dst := 1, Src := 2, Id := 7, Protocol := 17
    CastType := CastType.localHost, OptionsValid := true }

/-- C6 (counterexample): a non-terminal fragment (MF set) with payload
length 0 is *not* rejected: `0 % 8 == 0` satisfies the alignment check
at line 573, so the packet is handed to the reassembler instead of
being dropped. -/
theorem ip4AccpetFrame_zero_length_not_rejected :
    Ip4AccpetFrame c6ZeroLenFrag =
      AcceptOutcome.toReassembler
        { Start := 64, Length := 0, End := 64
          CastType := CastType.localHost, Life := 0 } ∧
    c6ZeroLenFrag.Fragment &&& 8192 ≠ 0 ∧
    (ip4AcceptClip c6ZeroLenFrag).Length = 0 ∧
    Ip4AccpetFrame c6ZeroLenFrag ≠ AcceptOutcome.restart := by
  refine ⟨rfl, ?_, rfl, ?_⟩ <;> decide

/-- C6 (amended): a non-terminal fragment (MF set) whose payload length
is 0 *passes* the fragment-path checks — DF must be clear, and
`0 % 8 == 0` satisfies the 8-byte-alignment test — and is handed to the
reassembler, provided the packet survives the general header
validation. -/
theorem ip4AccpetFrame_zero_length_reaches_reassembler (f : RxFrame)
    (hio : f.IoError = false) (hsb : f.SbDestroyed = false)
    (hver : f.Ver = 4) (hhl : 20 ≤ f.HeadLenField * 4)
    (htl : f.TotalLen = f.HeadLenField * 4)
    (hsz : f.TotalLen ≤ f.TotalSize) (hsz20 : 20 ≤ f.TotalSize)
    (hck : f.ChecksumField = 0 ∨ f.ChecksumComputedOk = true)
    (hcast : f.CastType ≠ CastType.none)
    (hend : (ip4AcceptClip f).End ≤ 65535)
    (hopt : f.OptionsValid = true)
    (hmf : f.Fragment &&& 8192 ≠ 0) (hdf : f.Fragment &&& 16384 = 0) :
    Ip4AccpetFrame f = AcceptOutcome.toReassembler (ip4AcceptClip f) ∧
    (ip4AcceptClip f).Length = 0 := by
  have hlen0 : f.TotalLen - f.HeadLenField * 4 = 0 := by omega
  have hlen : (ip4AcceptClip f).Length = 0 := by
    simp [ip4AcceptClip, hlen0]
  refine ⟨?_, hlen⟩
  have hsizeEq : (if f.TotalLen < f.TotalSize then f.TotalLen else f.TotalSize) = f.TotalLen := by
    rcases Nat.lt_or_ge f.TotalLen f.TotalSize with h | h
    · simp [h]
    · have h2 : f.TotalLen = f.TotalSize := Nat.le_antisymm hsz h
      simp [h2]
  rcases hck with hck | hck <;>
    simp [Ip4AccpetFrame, hio, hsb, hver, hopt, hcast, hmf, hdf, hck, hlen, hsizeEq,
          (by omega : ¬ f.TotalSize < 20), (by omega : ¬ f.HeadLenField * 4 < 20),
          (by omega : ¬ f.TotalLen < f.HeadLenField * 4),
          (by omega : ¬ 65535 < (ip4AcceptClip f).End)] <;>
    rw [if_neg (by omega), if_neg (by omega), if_neg (by omega)]

/-- Witness for the amended C6 theorem at the concrete zero-length
fragment. -/
theorem ip4AccpetFrame_zero_length_reaches_reassembler_witness :
    Ip4AccpetFrame c6ZeroLenFrag = AcceptOutcome.toReassembler (ip4AcceptClip c6ZeroLenFrag) ∧
    (ip4AcceptClip c6ZeroLenFrag).Length = 0 :=
  ip4AccpetFrame_zero_length_reaches_reassembler c6ZeroLenFrag
    (by decide) (by decide) (by decide) (by decide) (by decide) (by decide)
    (by decide) (Or.inl (by decide)) (by decide) (by decide) (by decide)
    (by decide) (by decide)

/-- `HTONL`: byte-swap of a 32-bit value (the child's group list stores
addresses in network byte order, line 718 compares against
`HTONL (Head->Dst)`). -/
def htonl (n : Nat) : Nat :=
  let m := n % 4294967296
  (m % 256) * 16777216 + (m / 256 % 256) * 65536 +
    (m / 65536 % 256) * 256 + (m / 16777216)

/-- `IP4_PROTO_ICMP`. -/
def ip4ProtoIcmp : Nat := 1

/-- The filter-relevant part of `EFI_IP4_CONFIG_DATA`
(`IpInstance->ConfigData`). -/
structure Ip4Config where
  ReceiveTimeout : Nat
  AcceptPromiscuous : Bool
  AcceptIcmpErrors : Bool
  AcceptAnyProtocol : Bool
  AcceptBroadcast : Bool
  DefaultProtocol : Nat
  UseDefaultAddress : Bool
deriving DecidableEq, Repr

/-- `IP4_STATE_*` of an IP4 child. -/
inductive ChildState where
  | unconfigured
  | configured
  | destroying
deriving DecidableEq, Repr

/-- A packet sitting on a child's `Received` queue: a (possibly shared)
`NET_BUF` clone.  `Shared` models `NET_BUF_SHARED`. -/
structure QPacket where
  Ip : Ip4Head
  Info : ClipInfo
  Shared : Bool
deriving DecidableEq, Repr

/-- An `IP4_RXDATA_WRAP`: the wrapper handed to the consumer, owning a
non-shared packet. -/
structure RxWrap where
  Packet : QPacket
deriving DecidableEq, Repr

/-- An IP4 child (`IP4_PROTOCOL`): configuration, the IP of the
interface it is attached to (`IpInstance->Interface->Ip`), its joined
multicast groups (network byte order), and its receive-side queues. -/
structure Ip4Child where
  State : ChildState
  Config : Ip4Config
  InterfaceIp : Nat
  Groups : List Nat
  Received : List QPacket
  RxTokens : List Nat
  Delivered : List RxWrap
deriving DecidableEq, Repr

/-- The protocol value the filter matches against (lines 674-687): for
an ICMP packet whose payload type classifies as an ICMP *error*
(external table `mIcmpClass`), the protocol of the IP header embedded
in the error is used instead — unless the child refuses ICMP errors
(`Option.none` = immediate reject). -/
def ip4EffectiveProto (config : Ip4Config) (protocol : Nat)
    (icmpTypeIsError : Bool) (icmpEmbeddedProto : Nat) : Option Nat :=
  if protocol = ip4ProtoIcmp ∧ icmpTypeIsError then
    if !config.AcceptIcmpErrors then Option.none
    else Option.some icmpEmbeddedProto
  else Option.some protocol

/-- `Ip4InstanceFrameAcceptable` (Ip4Input.c, lines 639-727).
`icmpTypeIsError`/`icmpEmbeddedProto` stand for the bytes `NetbufCopy`
reads out of the packet and the external `mIcmpClass` classification.
The group loop (lines 717-723) returns `Index < GroupCount`, i.e.
membership of `HTONL (Head->Dst)` in the group array. -/
def Ip4InstanceFrameAcceptable (inst : Ip4Child) (head : Ip4Head)
    (icmpTypeIsError : Bool) (icmpEmbeddedProto : Nat) (info : ClipInfo) : Bool :=
  let config := inst.Config
  if config.ReceiveTimeout = 4294967295 then false
  else if config.AcceptPromiscuous then true
  else
    match ip4EffectiveProto config head.Protocol icmpTypeIsError icmpEmbeddedProto with
    | Option.none => false
    | Option.some proto =>
      if !config.AcceptAnyProtocol && proto ≠ config.DefaultProtocol then false
      else if ip4IsBroadcast info.CastType then config.AcceptBroadcast
      else if info.CastType = CastType.multicast then
        if !config.UseDefaultAddress && inst.InterfaceIp = 0 then true
        else decide (htonl head.Dst ∈ inst.Groups)
      else true

/-- C7: once the multicast branch of the filter is reached (the timeout
sentinel, promiscuous, ICMP-error and protocol stages did not decide),
a multicast packet is accepted unconditionally when the child has no
bound address — in the source's terms `!UseDefaultAddress` and the
interface IP is `0` (lines 713-715), without consulting `Groups` — and
otherwise accepted exactly when `HTONL (Head->Dst)` is one of the
child's joined groups. -/
theorem ip4InstanceFrameAcceptable_multicast (inst : Ip4Child) (head : Ip4Head)
    (icmpE : Bool) (icmpP : Nat) (info : ClipInfo)
    (hmc : info.CastType = CastType.multicast)
    (hto : inst.Config.ReceiveTimeout ≠ 4294967295)
    (hpr : inst.Config.AcceptPromiscuous = false)
    (hproto : ∃ proto,
      ip4EffectiveProto inst.Config head.Protocol icmpE icmpP = Option.some proto ∧
      (inst.Config.AcceptAnyProtocol = true ∨ proto = inst.Config.DefaultProtocol)) :
    Ip4InstanceFrameAcceptable inst head icmpE icmpP info =
      (if inst.Config.UseDefaultAddress = false ∧ inst.InterfaceIp = 0 then true
       else decide (htonl head.Dst ∈ inst.Groups)) := by
  obtain ⟨proto, hp, hap⟩ := hproto
  unfold Ip4InstanceFrameAcceptable
  rw [if_neg hto, if_neg (by simp [hpr])]
  simp only [hp]
  rw [if_neg (by rcases hap with h | h <;> simp [h])]
  rw [if_neg (by simp [hmc, ip4IsBroadcast]), if_pos hmc]
  by_cases h : inst.Config.UseDefaultAddress = false ∧ inst.InterfaceIp = 0
  · rw [if_pos h]
    obtain ⟨h1, h2⟩ := h
    simp [h1, h2]
  · rw [if_neg h]
    have hb : (!inst.Config.UseDefaultAddress && decide (inst.InterfaceIp = 0)) = false := by
      rcases Bool.eq_false_or_eq_true inst.Config.UseDefaultAddress with hu | hu
      · simp [hu]
      · have hz : inst.InterfaceIp ≠ 0 := fun hz => h ⟨hu, hz⟩
        simp [hu, hz]
    simp [hb]

/-- A child used to witness the multicast acceptance: not promiscuous,
accepts any protocol, does not use the default address and its
interface IP is 0 (unbound), with an empty group list. -/
def c7Child : Ip4Child :=
  { State := ChildState.configured
    Config := { ReceiveTimeout := 1000000, AcceptPromiscuous := false
                AcceptIcmpErrors := false, AcceptAnyProtocol := true
                AcceptBroadcast := false, DefaultProtocol := 17
                UseDefaultAddress := false }
    InterfaceIp := 0, Groups := [], Received := [], RxTokens := [], Delivered := [] }

/-- A multicast clip info for the C7 witness. -/
def c7Info : ClipInfo :=
  { Start := 0, Length := 100, End := 100, CastType := CastType.multicast, Life := 120 }

/-- Witness for the C7 theorem: the unbound child accepts the multicast
packet even though its group list is empty. -/
theorem ip4InstanceFrameAcceptable_multicast_witness :
    Ip4InstanceFrameAcceptable c7Child (exHead 120 true 0) false 0 c7Info = true := by
  have h := ip4InstanceFrameAcceptable_multicast c7Child (exHead 120 true 0) false 0 c7Info
    rfl (by decide) rfl ⟨17, rfl, Or.inl rfl⟩
  rw [h]
  decide

/-- Receive-path status codes used by this file. -/
inductive EfiStatus where
  | success
  | notFound
  | notStarted
  | invalidParameter
  | outOfResources
deriving DecidableEq, Repr

/-- Result of `Ip4InstanceDeliverPacket`: the status, the allocator
cursor, and the child's three queues after the call. -/
structure DeliverRes where
  Status : EfiStatus
  Ctr : Nat
  Received : List QPacket
  RxTokens : List Nat
  Delivered : List RxWrap
deriving DecidableEq, Repr

/-- The wrapper built for a queued packet: for a non-shared packet the
packet itself is wrapped (`Ip4WrapRxData`, line 937); for a shared
packet the private duplicate made by `NetbufDuplicate` is wrapped
(lines 949-966) and the shared original is freed.  Either way the
wrapper owns a non-shared copy of the packet. -/
def ip4WrapOf (p : QPacket) : RxWrap :=
  ⟨{ p with Shared := false }⟩

/-- `Ip4InstanceDeliverPacket` (Ip4Input.c, lines 915-995).  The loop
runs while both the `Received` queue and the `RxTokens` map are
non-empty.  `alloc` is the external allocator: one draw for
`Ip4WrapRxData` (its internal `AllocatePool`/`CreateEvent` failures
both surface as a `NULL` wrapper), and for a shared packet an extra
preceding draw for `NetbufDuplicate`.  On any allocation failure the
function returns `EFI_OUT_OF_RESOURCES` with the current head packet
still at the head of `Received` (a failed duplicate is freed), no token
removed and no wrapper inserted; on success the packet leaves
`Received`, the wrapper is pushed on `Delivered` (`InsertHeadList`),
one token is removed and the consumer event is signalled. -/
def Ip4InstanceDeliverPacket (alloc : Nat → Bool) :
    List QPacket → Nat → List Nat → List RxWrap → DeliverRes
  | [], ctr, tokens, delivered =>
    ⟨EfiStatus.success, ctr, [], tokens, delivered⟩
  | p :: ps, ctr, tokens, delivered =>
    match tokens with
    | [] => ⟨EfiStatus.success, ctr, p :: ps, [], delivered⟩
    | _t :: ts =>
      if p.Shared = false then
        if alloc ctr then
          Ip4InstanceDeliverPacket alloc ps (ctr + 1) ts (ip4WrapOf p :: delivered)
        else ⟨EfiStatus.outOfResources, ctr + 1, p :: ps, tokens, delivered⟩
      else
        if alloc ctr = false then
          ⟨EfiStatus.outOfResources, ctr + 1, p :: ps, tokens, delivered⟩
        else if alloc (ctr + 1) then
          Ip4InstanceDeliverPacket alloc ps (ctr + 2) ts (ip4WrapOf p :: delivered)
        else ⟨EfiStatus.outOfResources, ctr + 2, p :: ps, tokens, delivered⟩

/-- C9: an out-of-resources return is atomic for the packet being
processed.  There is a `k` — the number of packets already delivered by
the earlier iterations of the same call — such that the final queues
are exactly the input queues with those `k` front packets and `k`
front tokens removed and their `k` wrappers pushed (in order) onto
`Delivered`; both remaining queues are non-empty, so the packet whose
allocation failed is still at the head of `Received`, unchanged (in
particular still shared if it was shared), with no token consumed and
no wrapper inserted for it, and everything delivered earlier stays
delivered. -/
theorem ip4InstanceDeliverPacket_oom_atomic (alloc : Nat → Bool)
    (received : List QPacket) (ctr : Nat) (tokens : List Nat)
    (delivered : List RxWrap)
    (h : (Ip4InstanceDeliverPacket alloc received ctr tokens delivered).Status =
      EfiStatus.outOfResources) :
    ∃ k, k < received.length ∧ k < tokens.length ∧
      (Ip4InstanceDeliverPacket alloc received ctr tokens delivered).Received =
        received.drop k ∧
      (Ip4InstanceDeliverPacket alloc received ctr tokens delivered).RxTokens =
        tokens.drop k ∧
      (Ip4InstanceDeliverPacket alloc received ctr tokens delivered).Delivered =
        ((received.take k).map ip4WrapOf).reverse ++ delivered := by
  induction received generalizing ctr tokens delivered with
  | nil => simp [Ip4InstanceDeliverPacket] at h
  | cons p ps ih =>
    cases tokens with
    | nil => simp [Ip4InstanceDeliverPacket] at h
    | cons t ts =>
      simp only [Ip4InstanceDeliverPacket] at h ⊢
      by_cases hsh : p.Shared = false
      · rw [if_pos hsh] at h ⊢
        by_cases ha : alloc ctr = true
        · rw [if_pos ha] at h ⊢
          obtain ⟨k, hk1, hk2, h3, h4, h5⟩ :=
            ih (ctr + 1) ts (ip4WrapOf p :: delivered) h
          refine ⟨k + 1, by simpa using Nat.succ_lt_succ hk1,
            by simpa using Nat.succ_lt_succ hk2, ?_, ?_, ?_⟩
          · simpa using h3
          · simpa using h4
          · rw [h5]
            simp
        · rw [if_neg ha] at h ⊢
          exact ⟨0, by simp, by simp, by simp, by simp, by simp⟩
      · rw [if_neg hsh] at h ⊢
        by_cases ha : alloc ctr = false
        · rw [if_pos ha] at h ⊢
          exact ⟨0, by simp, by simp, by simp, by simp, by simp⟩
        · rw [if_neg ha] at h ⊢
          by_cases hb : alloc (ctr + 1) = true
          · rw [if_pos hb] at h ⊢
            obtain ⟨k, hk1, hk2, h3, h4, h5⟩ :=
              ih (ctr + 2) ts (ip4WrapOf p :: delivered) h
            refine ⟨k + 1, by simpa using Nat.succ_lt_succ hk1,
              by simpa using Nat.succ_lt_succ hk2, ?_, ?_, ?_⟩
            · simpa using h3
            · simpa using h4
            · rw [h5]
              simp
          · rw [if_neg hb] at h ⊢
            exact ⟨0, by simp, by simp, by simp, by simp, by simp⟩

/-- A shared queued packet for the C9 witness. -/
def c9Pkt : QPacket :=
  ⟨exHead 120 true 0, exInfo 0 100, true⟩

/-- Witness for the C9 theorem: with an allocator that always fails, a
child holding one shared packet and one token returns out-of-resources
with the packet still queued, the token still pending and nothing
delivered. -/
theorem ip4InstanceDeliverPacket_oom_atomic_witness :
    ∃ k, k < ([c9Pkt] : List QPacket).length ∧ k < ([5] : List Nat).length ∧
      (Ip4InstanceDeliverPacket (fun _ => false) [c9Pkt] 0 [5] []).Received =
        ([c9Pkt] : List QPacket).drop k ∧
      (Ip4InstanceDeliverPacket (fun _ => false) [c9Pkt] 0 [5] []).RxTokens =
        ([5] : List Nat).drop k ∧
      (Ip4InstanceDeliverPacket (fun _ => false) [c9Pkt] 0 [5] []).Delivered =
        ((([c9Pkt] : List QPacket).take k).map ip4WrapOf).reverse ++ ([] : List RxWrap) :=
  ip4InstanceDeliverPacket_oom_atomic (fun _ => false) [c9Pkt] 0 [5] [] (by decide)

/-- `IP4_US_TO_SEC`: the 100ns-based receive timeout scaled to seconds
(conversion macro declared in a header outside this file; the spec
states the enqueued packet's life is the child's receive timeout). -/
def ip4UsToSec (us : Nat) : Nat := us / 1000000

/-- Observable actions of `Ip4Demultiplex`, in program order: a child
accepting (enqueuing a shared clone of) the packet during pass 1, the
release of the original packet reference between the passes
(`NetbufFree (Packet)`, line 1165), and a pass-2 per-child delivery
call. -/
inductive DmxEvent where
  | enqueueAccept
  | releaseOriginal
  | deliverChild
deriving DecidableEq, Repr

/-- An `IP4_INTERFACE` as seen by the demultiplexer: its configured
flag, station IP, promiscuous-receive flag and attached children. -/
structure Ip4Interface where
  Configured : Bool
  Ip : Nat
  PromiscRecv : Bool
  IpInstances : List Ip4Child
deriving DecidableEq, Repr

/-- Result of `Ip4InstanceEnquePacket`. -/
structure EnqueRes where
  Status : EfiStatus
  Ctr : Nat
  Child : Ip4Child
deriving DecidableEq, Repr

/-- `Ip4InstanceEnquePacket` (Ip4Input.c, lines 746-784): reject an
unconfigured child, run the acceptor filter, clone the packet (one
allocator draw; a failed `NetbufClone` is out-of-resources), stamp the
clone's `Life` from the child's receive timeout and append it to the
child's `Received` queue (`InsertTailList`).  The clone is shared with
the original. -/
def Ip4InstanceEnquePacket (alloc : Nat → Bool) (ctr : Nat) (inst : Ip4Child)
    (head : Ip4Head) (icmpE : Bool) (icmpP : Nat) (info : ClipInfo) : EnqueRes :=
  if inst.State ≠ ChildState.configured then ⟨EfiStatus.notStarted, ctr, inst⟩
  else if !(Ip4InstanceFrameAcceptable inst head icmpE icmpP info) then
    ⟨EfiStatus.invalidParameter, ctr, inst⟩
  else if !(alloc ctr) then ⟨EfiStatus.outOfResources, ctr + 1, inst⟩
  else
    ⟨EfiStatus.success, ctr + 1,
     { inst with Received := inst.Received ++
         [⟨head, { info with Life := ip4UsToSec inst.Config.ReceiveTimeout }, true⟩] }⟩

/-- The per-interface local cast type of `Ip4InterfaceEnquePacket`
(lines 1031-1059): multicast and local-broadcast pass through; an
unconfigured interface (`Ip == 0`) receives as local host; otherwise
the external `Ip4GetNetCast` classifies, with a promiscuous fallback. -/
def ip4LocalCastType (netCast : Nat → Ip4Interface → CastType) (ipIf : Ip4Interface)
    (head : Ip4Head) (info : ClipInfo) : CastType :=
  if info.CastType = CastType.multicast ∨ info.CastType = CastType.localBroadcast then
    info.CastType
  else if ipIf.Ip = 0 then CastType.localHost
  else
    let lt := netCast head.Dst ipIf
    if lt = CastType.none ∧ ipIf.PromiscRecv then CastType.promiscuous else lt

/-- Result of the child loop of `Ip4InterfaceEnquePacket`. -/
structure ChildrenEnqueRes where
  Count : Nat
  Ctr : Nat
  Children : List Ip4Child
  Events : List DmxEvent
deriving Repr

/-- The child loop of `Ip4InterfaceEnquePacket` (lines 1076-1083): try
`Ip4InstanceEnquePacket` on every attached child, counting the
`EFI_SUCCESS` returns (each counted accept emits one
`DmxEvent.enqueueAccept`). -/
def ip4ChildrenEnque (alloc : Nat → Bool) (head : Ip4Head) (icmpE : Bool)
    (icmpP : Nat) (info : ClipInfo) : List Ip4Child → Nat → ChildrenEnqueRes
  | [], ctr => ⟨0, ctr, [], []⟩
  | c :: cs, ctr =>
    let r := Ip4InstanceEnquePacket alloc ctr c head icmpE icmpP info
    let rest := ip4ChildrenEnque alloc head icmpE icmpP info cs r.Ctr
    if r.Status = EfiStatus.success then
      ⟨rest.Count + 1, rest.Ctr, r.Child :: rest.Children,
       DmxEvent.enqueueAccept :: rest.Events⟩
    else ⟨rest.Count, rest.Ctr, r.Child :: rest.Children, rest.Events⟩

/-- Result of `Ip4InterfaceEnquePacket`. -/
structure IfaceEnqueRes where
  Count : Nat
  Ctr : Nat
  Iface : Ip4Interface
  Events : List DmxEvent
deriving Repr

/-- `Ip4InterfaceEnquePacket` (lines 1011-1087): returns 0 when the
local cast type is none; otherwise runs the child loop with the
packet's cast type temporarily overwritten by the local type (the
original is restored afterwards, which is implicit here because the
model is pure). -/
def Ip4InterfaceEnquePacket (alloc : Nat → Bool)
    (netCast : Nat → Ip4Interface → CastType) (ctr : Nat) (head : Ip4Head)
    (icmpE : Bool) (icmpP : Nat) (info : ClipInfo) (ipIf : Ip4Interface) :
    IfaceEnqueRes :=
  let lt := ip4LocalCastType netCast ipIf head info
  if lt = CastType.none then ⟨0, ctr, ipIf, []⟩
  else
    let r := ip4ChildrenEnque alloc head icmpE icmpP { info with CastType := lt }
      ipIf.IpInstances ctr
    ⟨r.Count, r.Ctr, { ipIf with IpInstances := r.Children }, r.Events⟩

/-- Result of pass 1 of `Ip4Demultiplex`. -/
structure IfsEnqueRes where
  Count : Nat
  Ctr : Nat
  Ifs : List Ip4Interface
  Events : List DmxEvent
deriving Repr

/-- Pass 1 of `Ip4Demultiplex` (lines 1150-1158): enqueue a shared copy
to every configured interface, summing the accept counts. -/
def ip4DemuxEnque (alloc : Nat → Bool) (netCast : Nat → Ip4Interface → CastType)
    (head : Ip4Head) (icmpE : Bool) (icmpP : Nat) (info : ClipInfo) :
    List Ip4Interface → Nat → IfsEnqueRes
  | [], ctr => ⟨0, ctr, [], []⟩
  | i :: rest0, ctr =>
    if i.Configured then
      let r := Ip4InterfaceEnquePacket alloc netCast ctr head icmpE icmpP info i
      let rest := ip4DemuxEnque alloc netCast head icmpE icmpP info rest0 r.Ctr
      ⟨r.Count + rest.Count, rest.Ctr, r.Iface :: rest.Ifs, r.Events ++ rest.Events⟩
    else
      let rest := ip4DemuxEnque alloc netCast head icmpE icmpP info rest0 ctr
      ⟨rest.Count, rest.Ctr, i :: rest.Ifs, rest.Events⟩

/-- Result of the per-interface delivery loop. -/
structure ChildrenDeliverRes where
  Ctr : Nat
  Children : List Ip4Child
  Events : List DmxEvent
deriving Repr

/-- The child loop of `Ip4InterfaceDeliverPacket` (lines 1108-1111):
drive `Ip4InstanceDeliverPacket` for every child (one
`DmxEvent.deliverChild` each). -/
def ip4ChildrenDeliver (alloc : Nat → Bool) :
    List Ip4Child → Nat → ChildrenDeliverRes
  | [], ctr => ⟨ctr, [], []⟩
  | c :: cs, ctr =>
    let r := Ip4InstanceDeliverPacket alloc c.Received ctr c.RxTokens c.Delivered
    let c2 := { c with Received := r.Received, RxTokens := r.RxTokens,
                       Delivered := r.Delivered }
    let rest := ip4ChildrenDeliver alloc cs r.Ctr
    ⟨rest.Ctr, c2 :: rest.Children, DmxEvent.deliverChild :: rest.Events⟩

/-- `Ip4InterfaceDeliverPacket` (lines 1100-1114). -/
def Ip4InterfaceDeliverPacket (alloc : Nat → Bool) (ctr : Nat)
    (ipIf : Ip4Interface) : ChildrenDeliverRes × Ip4Interface :=
  let r := ip4ChildrenDeliver alloc ipIf.IpInstances ctr
  (r, { ipIf with IpInstances := r.Children })

/-- Result of pass 2 of `Ip4Demultiplex`. -/
structure DemuxDeliverRes where
  Ctr : Nat
  Ifs : List Ip4Interface
  Events : List DmxEvent
deriving Repr

/-- Pass 2 of `Ip4Demultiplex` (lines 1171-1177): deliver on every
configured interface. -/
def ip4DemuxDeliver (alloc : Nat → Bool) :
    List Ip4Interface → Nat → DemuxDeliverRes
  | [], ctr => ⟨ctr, [], []⟩
  | i :: rest0, ctr =>
    if i.Configured then
      let r := Ip4InterfaceDeliverPacket alloc ctr i
      let rest := ip4DemuxDeliver alloc rest0 r.1.Ctr
      ⟨rest.Ctr, r.2 :: rest.Ifs, r.1.Events ++ rest.Events⟩
    else
      let rest := ip4DemuxDeliver alloc rest0 ctr
      ⟨rest.Ctr, i :: rest.Ifs, rest.Events⟩

/-- Result of `Ip4Demultiplex`. -/
structure DemuxRes where
  Status : EfiStatus
  Ctr : Nat
  Ifs : List Ip4Interface
  Events : List DmxEvent
deriving Repr

/-- `Ip4Demultiplex` (Ip4Input.c, lines 1136-1180): pass 1 enqueues a
shared copy to each accepting child of each configured interface; the
original packet reference is then released (`NetbufFree`, line 1165);
if no child accepted, `EFI_NOT_FOUND`, otherwise pass 2 delivers on
every configured interface and the result is `EFI_SUCCESS`. -/
def Ip4Demultiplex (alloc : Nat → Bool) (netCast : Nat → Ip4Interface → CastType)
    (ctr : Nat) (interfaces : List Ip4Interface) (head : Ip4Head)
    (icmpE : Bool) (icmpP : Nat) (info : ClipInfo) : DemuxRes :=
  let p1 := ip4DemuxEnque alloc netCast head icmpE icmpP info interfaces ctr
  if p1.Count = 0 then
    ⟨EfiStatus.notFound, p1.Ctr, p1.Ifs, p1.Events ++ [DmxEvent.releaseOriginal]⟩
  else
    let p2 := ip4DemuxDeliver alloc p1.Ifs p1.Ctr
    ⟨EfiStatus.success, p2.Ctr, p2.Ifs,
     p1.Events ++ DmxEvent.releaseOriginal :: p2.Events⟩

/-- Pass-1 child loop: every emitted event is an accept, and exactly one
event is emitted per counted accept. -/
theorem ip4ChildrenEnque_events_spec (alloc : Nat → Bool) (head : Ip4Head)
    (icmpE : Bool) (icmpP : Nat) (info : ClipInfo) (cs : List Ip4Child) (ctr : Nat) :
    (∀ x ∈ (ip4ChildrenEnque alloc head icmpE icmpP info cs ctr).Events,
      x = DmxEvent.enqueueAccept) ∧
    (ip4ChildrenEnque alloc head icmpE icmpP info cs ctr).Events.length =
      (ip4ChildrenEnque alloc head icmpE icmpP info cs ctr).Count := by
  induction cs generalizing ctr with
  | nil => simp [ip4ChildrenEnque]
  | cons c cs ih =>
    simp only [ip4ChildrenEnque]
    obtain ⟨ih1, ih2⟩ :=
      ih (Ip4InstanceEnquePacket alloc ctr c head icmpE icmpP info).Ctr
    by_cases hs :
        (Ip4InstanceEnquePacket alloc ctr c head icmpE icmpP info).Status =
          EfiStatus.success
    · rw [if_pos hs]
      refine ⟨?_, by simpa using ih2⟩
      intro x hx
      rcases List.mem_cons.mp hx with hx | hx
      · exact hx
      · exact ih1 x hx
    · rw [if_neg hs]
      exact ⟨ih1, ih2⟩

/-- Per-interface pass-1: same event discipline as the child loop. -/
theorem ip4InterfaceEnquePacket_events_spec (alloc : Nat → Bool)
    (netCast : Nat → Ip4Interface → CastType) (ctr : Nat) (head : Ip4Head)
    (icmpE : Bool) (icmpP : Nat) (info : ClipInfo) (ipIf : Ip4Interface) :
    (∀ x ∈ (Ip4InterfaceEnquePacket alloc netCast ctr head icmpE icmpP info ipIf).Events,
      x = DmxEvent.enqueueAccept) ∧
    (Ip4InterfaceEnquePacket alloc netCast ctr head icmpE icmpP info ipIf).Events.length =
      (Ip4InterfaceEnquePacket alloc netCast ctr head icmpE icmpP info ipIf).Count := by
  simp only [Ip4InterfaceEnquePacket]
  by_cases hl : ip4LocalCastType netCast ipIf head info = CastType.none
  · rw [if_pos hl]
    simp
  · rw [if_neg hl]
    exact ip4ChildrenEnque_events_spec alloc head icmpE icmpP
      { info with CastType := ip4LocalCastType netCast ipIf head info }
      ipIf.IpInstances ctr

/-- Pass 1: all events are accepts and their number is the total count. -/
theorem ip4DemuxEnque_events_spec (alloc : Nat → Bool)
    (netCast : Nat → Ip4Interface → CastType) (head : Ip4Head)
    (icmpE : Bool) (icmpP : Nat) (info : ClipInfo) (interfaces : List Ip4Interface)
    (ctr : Nat) :
    (∀ x ∈ (ip4DemuxEnque alloc netCast head icmpE icmpP info interfaces ctr).Events,
      x = DmxEvent.enqueueAccept) ∧
    (ip4DemuxEnque alloc netCast head icmpE icmpP info interfaces ctr).Events.length =
      (ip4DemuxEnque alloc netCast head icmpE icmpP info interfaces ctr).Count := by
  induction interfaces generalizing ctr with
  | nil => simp [ip4DemuxEnque]
  | cons i rest0 ih =>
    simp only [ip4DemuxEnque]
    by_cases hc : i.Configured = true
    · rw [if_pos hc]
      obtain ⟨if1, if2⟩ :=
        ip4InterfaceEnquePacket_events_spec alloc netCast ctr head icmpE icmpP info i
      obtain ⟨ih1, ih2⟩ :=
        ih (Ip4InterfaceEnquePacket alloc netCast ctr head icmpE icmpP info i).Ctr
      refine ⟨?_, ?_⟩
      · intro x hx
        rcases List.mem_append.mp hx with hx | hx
        · exact if1 x hx
        · exact ih1 x hx
      · simp [List.length_append, if2, ih2]
    · rw [if_neg hc]
      exact ih ctr

/-- Pass-2 child loop: every emitted event is a per-child delivery. -/
theorem ip4ChildrenDeliver_events_spec (alloc : Nat → Bool) (cs : List Ip4Child)
    (ctr : Nat) :
    ∀ x ∈ (ip4ChildrenDeliver alloc cs ctr).Events, x = DmxEvent.deliverChild := by
  induction cs generalizing ctr with
  | nil => simp [ip4ChildrenDeliver]
  | cons c cs ih =>
    simp only [ip4ChildrenDeliver]
    intro x hx
    rcases List.mem_cons.mp hx with hx | hx
    · exact hx
    · exact ih _ x hx

/-- Pass 2: all events are per-child deliveries. -/
theorem ip4DemuxDeliver_events_spec (alloc : Nat → Bool)
    (interfaces : List Ip4Interface) (ctr : Nat) :
    ∀ x ∈ (ip4DemuxDeliver alloc interfaces ctr).Events, x = DmxEvent.deliverChild := by
  induction interfaces generalizing ctr with
  | nil => simp [ip4DemuxDeliver]
  | cons i rest0 ih =>
    simp only [ip4DemuxDeliver]
    by_cases hc : i.Configured = true
    · rw [if_pos hc]
      intro x hx
      rcases List.mem_append.mp hx with hx | hx
      · exact ip4ChildrenDeliver_events_spec alloc i.IpInstances ctr x hx
      · exact ih _ x hx
    · rw [if_neg hc]
      exact ih ctr

/-- C8: `Ip4Demultiplex` returns not-found exactly when zero children
accepted the packet in pass 1, and success otherwise, and its event
trace is: the pass-1 accept events, then the release of the original
packet reference, then the pass-2 delivery events (none when not-found)
— so the original reference is released after pass 1 and before
pass 2 in either case. -/
theorem ip4Demultiplex_notFound_iff (alloc : Nat → Bool)
    (netCast : Nat → Ip4Interface → CastType) (ctr : Nat)
    (interfaces : List Ip4Interface) (head : Ip4Head) (icmpE : Bool)
    (icmpP : Nat) (info : ClipInfo) :
    ∃ e1 e2,
      (Ip4Demultiplex alloc netCast ctr interfaces head icmpE icmpP info).Events =
        e1 ++ DmxEvent.releaseOriginal :: e2 ∧
      (∀ x ∈ e1, x = DmxEvent.enqueueAccept) ∧
      (∀ x ∈ e2, x = DmxEvent.deliverChild) ∧
      ((Ip4Demultiplex alloc netCast ctr interfaces head icmpE icmpP info).Status =
          EfiStatus.notFound ↔ e1 = []) ∧
      ((Ip4Demultiplex alloc netCast ctr interfaces head icmpE icmpP info).Status =
          EfiStatus.notFound ∨
       (Ip4Demultiplex alloc netCast ctr interfaces head icmpE icmpP info).Status =
          EfiStatus.success) := by
  obtain ⟨hall, hlen⟩ :=
    ip4DemuxEnque_events_spec alloc netCast head icmpE icmpP info interfaces ctr
  unfold Ip4Demultiplex
  by_cases hc :
      (ip4DemuxEnque alloc netCast head icmpE icmpP info interfaces ctr).Count = 0
  · rw [if_pos hc]
    have hnil :
        (ip4DemuxEnque alloc netCast head icmpE icmpP info interfaces ctr).Events = [] :=
      List.eq_nil_of_length_eq_zero (by rw [hlen, hc])
    exact ⟨_, [], rfl, hall, by simp, by simp [hnil], Or.inl rfl⟩
  · rw [if_neg hc]
    refine ⟨_, _, rfl, hall,
      ip4DemuxDeliver_events_spec alloc _ _, ?_, Or.inr rfl⟩
    constructor
    · intro hx
      exact absurd hx (by simp)
    · intro hx
      exact absurd (by rw [← hlen, hx]; rfl) hc

/-- The timer-visible state of an IP4 service instance: the assembly
table's buckets and the children with their received queues.  (The
transmit-side `NetMapIterate` over `TxTokens` at line 1239 is an
external iterator and is not part of the receive-path state.) -/
structure Ip4Service where
  AssembleBuckets : List (List AssembleEntry)
  Children : List Ip4Child
deriving Repr

/-- The fragment-timeout loop of `Ip4PacketTimerTicking` (lines
1209-1218): for each assembly entry,
`if ((Assemble->Life > 0) && (--Assemble->Life == 0))` remove and free
it; a positive life is always decremented, a zero life is left alone
(the `&&` short-circuits before the decrement). -/
def ip4AssembleTickList : List AssembleEntry → List AssembleEntry
  | [] => []
  | a :: rest =>
    if a.Life > 0 then
      if a.Life - 1 = 0 then ip4AssembleTickList rest
      else { a with Life := a.Life - 1 } :: ip4AssembleTickList rest
    else a :: ip4AssembleTickList rest

/-- The received-queue timeout loop of `Ip4PacketTimerTicking` (lines
1226-1234): identical discipline on each queued packet's
`Info->Life`. -/
def ip4ReceivedTickList : List QPacket → List QPacket
  | [] => []
  | p :: rest =>
    if p.Info.Life > 0 then
      if p.Info.Life - 1 = 0 then ip4ReceivedTickList rest
      else { p with Info := { p.Info with Life := p.Info.Life - 1 } } ::
        ip4ReceivedTickList rest
    else p :: ip4ReceivedTickList rest

/-- `Ip4PacketTimerTicking` (Ip4Input.c, lines 1192-1241): age every
assembly entry in every bucket and every packet on every child's
received queue. -/
def Ip4PacketTimerTicking (sb : Ip4Service) : Ip4Service :=
  { AssembleBuckets := sb.AssembleBuckets.map ip4AssembleTickList
    Children := sb.Children.map
      (fun c => { c with Received := ip4ReceivedTickList c.Received }) }

/-- C10: a tick decrements a life only when it is strictly positive and
frees the entry or queued packet exactly when that decrement reaches 0:
an element with `Life = 0` survives unchanged, one with `Life = 1` is
removed (freed), and one with `Life ≥ 2` survives with `Life - 1`; the
service-level tick applies this to every bucket and every child's
received queue. -/
theorem ip4PacketTimerTicking_life_spec :
    (∀ l : List AssembleEntry,
      ip4AssembleTickList l = l.filterMap (fun a =>
        if a.Life = 0 then Option.some a
        else if a.Life = 1 then Option.none
        else Option.some { a with Life := a.Life - 1 })) ∧
    (∀ l : List QPacket,
      ip4ReceivedTickList l = l.filterMap (fun p =>
        if p.Info.Life = 0 then Option.some p
        else if p.Info.Life = 1 then Option.none
        else Option.some { p with Info := { p.Info with Life := p.Info.Life - 1 } })) ∧
    (∀ sb : Ip4Service, Ip4PacketTimerTicking sb =
      { AssembleBuckets := sb.AssembleBuckets.map ip4AssembleTickList
        Children := sb.Children.map
          (fun c => { c with Received := ip4ReceivedTickList c.Received }) }) := by
  refine ⟨?_, ?_, fun sb => rfl⟩
  · intro l
    induction l with
    | nil => simp [ip4AssembleTickList]
    | cons a rest ih =>
      cases ha : a.Life with
      | zero => simp [ip4AssembleTickList, ha, ih]
      | succ m =>
        cases m with
        | zero => simp [ip4AssembleTickList, ha, ih]
        | succ n => simp [ip4AssembleTickList, ha, ih]
  · intro l
    induction l with
    | nil => simp [ip4ReceivedTickList]
    | cons p rest ih =>
      cases ha : p.Info.Life with
      | zero => simp [ip4ReceivedTickList, ha, ih]
      | succ m =>
        cases m with
        | zero => simp [ip4ReceivedTickList, ha, ih]
        | succ n => simp [ip4ReceivedTickList, ha, ih]
